import Mathlib

/-!
Verification of the Artifact Acquisition Manager (`src/model_manager.py`,
class `ModelManager`) against its natural-language specification.

Shallow embedding conventions:
* The filesystem is a map `FS := String → Option (List Nat)` from paths to
  file contents (lists of bytes); `none` means the path does not exist.
* The cryptographic digest functions from `hashlib` are an external library;
  they are passed in as an abstract `HashFns` record of hex-digest functions.
* Paths are joined with `/` exactly as `pathlib.Path./` does; Python's
  `destination.with_suffix(destination.suffix + '.part')` appends `.part`
  after the existing suffix, i.e. produces `destination ++ ".part"`.
* Python truthiness of the optional `checksum` string: `None` and `""` are
  falsy, everything else truthy.
-/

/-- A filesystem: paths to optional byte contents. -/
def FS : Type := String → Option (List Nat)

/-- Overwrite the file at `p` with content `c`. -/
def fsWrite (fs : FS) (p : String) (c : List Nat) : FS :=
  fun q => if q = p then some c else fs q

/-- `Path.rename`: the file at `src` moves to `dst`; `src` disappears. -/
def fsRename (fs : FS) (src dst : String) : FS :=
  fun q => if q = dst then fs src else if q = src then none else fs q

/-- `Path.unlink(missing_ok=True)`: remove the file at `p` if present. -/
def fsRemove (fs : FS) (p : String) : FS :=
  fun q => if q = p then none else fs q

/-- Hex-digest functions of `hashlib` (external library), abstracted. -/
structure HashFns where
  md5Hex : List Nat → String
  sha256Hex : List Nat → String

/-- `ModelStatus` enum of `model_manager.py`. -/
inductive ModelStatus
  | NOT_INSTALLED
  | INSTALLED
  | OUTDATED
  | CORRUPTED
  | DOWNLOADING
deriving DecidableEq, Repr

/-- `ModelInfo` dataclass: static descriptor fields (the mutable runtime
`status` field is not part of the descriptor embedding; statuses are the
return values of `check_installed`). -/
structure ModelInfo where
  name : String
  type : String
  url : String
  filename : String
  size : Nat
  checksum : Option String
  checksum_type : String
  destination : String
deriving DecidableEq, Repr

/-- Python truthiness of the optional checksum string. -/
def truthyOpt : Option String → Bool
  | none => false
  | some s => !(s == "")

/-- ASCII lowercase of one character, as Python's `str.lower` acts on the
ASCII range (the only range hex digests and algorithm names use). -/
def lowerChar (c : Char) : Char :=
  if 65 ≤ c.toNat ∧ c.toNat ≤ 90 then Char.ofNat (c.toNat + 32) else c

/-- Python's `str.lower` on the ASCII range. -/
def strLower (s : String) : String := ⟨s.data.map lowerChar⟩

/-- `ModelManager._verify_checksum`: trivially true with no/empty expected
checksum; false when the file is absent; dispatch on the lowercased
algorithm name, unknown algorithms fail open; case-insensitive hex compare. -/
def verify_checksum (H : HashFns) (fs : FS) (file_path : String)
    (expected_checksum : Option String) (checksum_type : String) : Bool :=
  match expected_checksum with
  | none => true
  | some e =>
    if e == "" then true
    else
      match fs file_path with
      | none => false
      | some content =>
        if strLower checksum_type == "md5" then
          strLower (H.md5Hex content) == strLower e
        else if strLower checksum_type == "sha256" then
          strLower (H.sha256Hex content) == strLower e
        else
          true

/-- The `type_paths` convention table inside `ModelManager._get_model_path`,
with the `.get(type, 'models')` fallback. -/
def type_paths (t : String) : String :=
  if t == "xtts" then "models/xtts"
  else if t == "latentsync" then "models/latentsync"
  else if t == "checkpoint" then "models/checkpoints"
  else if t == "vae" then "models/vae"
  else if t == "lora" then "models/loras"
  else if t == "controlnet" then "models/controlnet"
  else "models"

/-- `ModelManager._get_model_path`. -/
def get_model_path (comfyui_path : String) (model : ModelInfo) : String :=
  if !(model.destination == "") then
    comfyui_path ++ "/" ++ model.destination ++ "/" ++ model.filename
  else
    comfyui_path ++ "/" ++ type_paths model.type ++ "/" ++ model.filename

/-- The per-model classification inside `ModelManager.check_installed`. -/
def check_status (H : HashFns) (fs : FS) (comfyui_path : String)
    (model : ModelInfo) : ModelStatus :=
  let model_path := get_model_path comfyui_path model
  if fs model_path = none then
    ModelStatus.NOT_INSTALLED
  else if truthyOpt model.checksum
          && !(verify_checksum H fs model_path model.checksum model.checksum_type) then
    ModelStatus.CORRUPTED
  else
    ModelStatus.INSTALLED

/-- `ModelManager.check_installed`: the status mapping, in catalog order. -/
def check_installed (H : HashFns) (fs : FS) (comfyui_path : String)
    (models : List ModelInfo) : List (String × ModelStatus) :=
  models.map (fun m => (m.name, check_status H fs comfyui_path m))

/-! ### The resumable fetcher `ModelManager._download_file` -/

/-- The server's answer to one `requests.get`:
`ok = false` models a request that raises (connection failure, timeout, or a
non-2xx status turned into an exception by `raise_for_status`);
`contentLength` is the optional `content-length` response header;
`chunks` are the bodies yielded by `iter_content` before the stream either
ends normally (`streamFails = false`) or raises mid-stream
(`streamFails = true`). -/
structure Response where
  ok : Bool
  contentLength : Option Nat
  chunks : List (List Nat)
  streamFails : Bool

/-- The network: a response for each (url, optional range start) request.
The range is `some k` exactly when a `Range: bytes=k-` header is sent. -/
structure Network where
  respond : String → Option Nat → Response

/-- Observable filesystem operations performed by `_download_file`, in
order: opening the staging file (`append = true` for mode `'ab'`, `false`
for the truncating `'wb'`), each chunk write, and the final rename. -/
inductive FsOp
  | openWrite (path : String) (append : Bool)
  | writeChunk (path : String) (chunk : List Nat)
  | rename (src : String) (dst : String)
deriving DecidableEq, Repr

/-- Result of one `_download_file` call. `ok = false` means the call raised
(in Python the exception propagates to the caller's retry loop); `fs` is the
filesystem state when the call returns or raises; `ops` the file operations
performed; `events` the `(bytes_downloaded, total_bytes)` pairs passed to
the progress callback, in order; `rangeStart` the range header actually
sent with the single request this call issues. -/
structure DLResult where
  ok : Bool
  fs : FS
  ops : List FsOp
  events : List (Nat × Nat)
  rangeStart : Option Nat

/-- The `for chunk in response.iter_content(...)` loop body: skip falsy
(empty) chunks, append to the staging file, bump the running byte count and
fire the progress callback. Returns the final filesystem together with the
write operations and progress events of the loop, in order. -/
def writeLoop (tmp : String) (total : Nat) :
    List (List Nat) → FS → Nat → FS × List FsOp × List (Nat × Nat)
  | [], fs, _ => (fs, [], [])
  | c :: rest, fs, downloaded =>
    if c = [] then
      writeLoop tmp total rest fs downloaded
    else
      let fs1 := fsWrite fs tmp (((fs tmp).getD []) ++ c)
      let d1 := downloaded + c.length
      let r := writeLoop tmp total rest fs1 d1
      (r.1, FsOp.writeChunk tmp c :: r.2.1, (d1, total) :: r.2.2)

/-- The staging path
`destination.with_suffix(destination.suffix + '.part')`, i.e.
`destination ++ ".part"`. -/
def part_path (destination : String) : String := destination ++ ".part"

/-- `resume_pos`: the staging file's current size, 0 when it is absent. -/
def resume_len (fs0 : FS) (destination : String) : Nat :=
  match fs0 (part_path destination) with
  | some c => c.length
  | none => 0

/-- The `Range` header sent: `bytes=k-` exactly when `resume_pos > 0`. -/
def range_header (fs0 : FS) (destination : String) : Option Nat :=
  if resume_len fs0 destination > 0 then some (resume_len fs0 destination)
  else none

/-- `total_size`: the `content-length` header (0 when absent), plus the
resume offset when resuming. -/
def total_size_of (fs0 : FS) (destination : String) (resp : Response) : Nat :=
  if resume_len fs0 destination > 0 then
    resp.contentLength.getD 0 + resume_len fs0 destination
  else
    resp.contentLength.getD 0

/-- The staging-file bytes already on disk that survive the open: the
existing content in append mode, nothing in truncate mode. -/
def resumed_bytes (fs0 : FS) (destination : String) : List Nat :=
  if resume_len fs0 destination > 0 then (fs0 (part_path destination)).getD []
  else []

/-- `ModelManager._download_file`. A positive staging-file size triggers
the range request and append mode; one initial progress event precedes the
chunk loop; on success the staging file is renamed onto the destination as
the last operation. -/
def download_file (net : Network) (fs0 : FS) (url destination : String) :
    DLResult :=
  let temp_file := part_path destination
  let resume_pos := resume_len fs0 destination
  let rangeStart := range_header fs0 destination
  let resp := net.respond url rangeStart
  if !resp.ok then
    { ok := false, fs := fs0, ops := [], events := [], rangeStart := rangeStart }
  else
    let total_size := total_size_of fs0 destination resp
    let append := decide (resume_pos > 0)
    let fs2 := fsWrite fs0 temp_file (resumed_bytes fs0 destination)
    let r := writeLoop temp_file total_size resp.chunks fs2 resume_pos
    let opsSoFar := FsOp.openWrite temp_file append :: r.2.1
    let events := (resume_pos, total_size) :: r.2.2
    if resp.streamFails then
      { ok := false, fs := r.1, ops := opsSoFar, events := events,
        rangeStart := rangeStart }
    else
      { ok := true, fs := fsRename r.1 temp_file destination,
        ops := opsSoFar ++ [FsOp.rename temp_file destination],
        events := events, rangeStart := rangeStart }

/-- Specification-level progress trace: after each non-empty chunk the
callback receives the cumulative byte count (previous count plus the chunk
length) and the fixed total. -/
def chunk_events (total : Nat) : Nat → List (List Nat) → List (Nat × Nat)
  | _, [] => []
  | d, c :: rest =>
    if c = [] then chunk_events total d rest
    else (d + c.length, total) :: chunk_events total (d + c.length) rest

/-- The response `_download_file` receives for its single request. -/
def dlResp (net : Network) (fs0 : FS) (url destination : String) : Response :=
  net.respond url (range_header fs0 destination)

/-- The chunk loop `_download_file` runs once the staging file is open. -/
def dlLoop (net : Network) (fs0 : FS) (url destination : String) :
    FS × List FsOp × List (Nat × Nat) :=
  writeLoop (part_path destination)
    (total_size_of fs0 destination (dlResp net fs0 url destination))
    (dlResp net fs0 url destination).chunks
    (fsWrite fs0 (part_path destination) (resumed_bytes fs0 destination))
    (resume_len fs0 destination)

/-! ### The retry loop `ModelManager.download_model` -/

/-- The payload of a raised `ModelNotFoundError` (from `error_handler.py`). -/
structure ModelNotFoundErr where
  model_name : String
  model_type : String
  expected_path : String
deriving DecidableEq, Repr

/-- Outcome of one `download_model` call: the boolean return value (or the
raised `ModelNotFoundError`), the final filesystem, the backoff sleeps
performed (in seconds, in order), and the number of `_download_file` calls
made — each such call issues exactly one network request, so `attempts`
is also the number of network requests. -/
structure AcquireResult where
  result : Except ModelNotFoundErr Bool
  fs : FS
  sleeps : List Nat
  attempts : Nat

/-- The `for attempt in range(1, max_retries + 1)` loop of `download_model`,
given the list of remaining attempt numbers. Each iteration calls
`_download_file` (one fetch attempt); on success with a truthy checksum it
verifies, returning `true` on a match and otherwise unlinking the
destination and retrying while `attempt < max_retries`; on success with no
checksum it returns `true`; on a raised transfer error it sleeps
`2 ^ attempt` and retries while `attempt < max_retries`. Falling off the
loop returns `false`. -/
def attemptLoop (H : HashFns) (net : Nat → Network) (model : ModelInfo)
    (model_path : String) (max_retries : Nat) :
    List Nat → FS → Bool × FS × List Nat × Nat
  | [], fs => (false, fs, [], 0)
  | attempt :: rest, fs =>
    let dl := download_file (net attempt) fs model.url model_path
    if dl.ok then
      if truthyOpt model.checksum then
        if verify_checksum H dl.fs model_path model.checksum model.checksum_type then
          (true, dl.fs, [], 1)
        else
          let fs1 := fsRemove dl.fs model_path
          if attempt < max_retries then
            let r := attemptLoop H net model model_path max_retries rest fs1
            (r.1, r.2.1, r.2.2.1, r.2.2.2 + 1)
          else
            (false, fs1, [], 1)
      else
        (true, dl.fs, [], 1)
    else
      if attempt < max_retries then
        let r := attemptLoop H net model model_path max_retries rest dl.fs
        (r.1, r.2.1, 2 ^ attempt :: r.2.2.1, r.2.2.2 + 1)
      else
        (false, dl.fs, [], 1)

/-- Catalog lookup `self.models[model_name]` guarded by
`model_name not in self.models`. -/
def findModel (models : List ModelInfo) (model_name : String) :
    Option ModelInfo :=
  models.find? (fun m => m.name == model_name)

/-- `ModelManager.download_model`. Raises `ModelNotFoundError` for an
unknown name; short-circuits with `true` when the file already exists,
`force` is off and the checksum verifies; otherwise runs the retry loop
over attempts `1, …, max_retries`. `net attempt` is the network's behaviour
during attempt number `attempt`. -/
def download_model (H : HashFns) (net : Nat → Network)
    (models : List ModelInfo) (comfyui_path : String) (max_retries : Nat)
    (fs0 : FS) (model_name : String) (force : Bool) : AcquireResult :=
  match findModel models model_name with
  | none =>
    { result := Except.error
        ⟨model_name, "Unknown", comfyui_path ++ "/" ++ "models"⟩,
      fs := fs0, sleeps := [], attempts := 0 }
  | some model =>
    let model_path := get_model_path comfyui_path model
    if (fs0 model_path).isSome && !force
        && verify_checksum H fs0 model_path model.checksum model.checksum_type then
      { result := Except.ok true, fs := fs0, sleeps := [], attempts := 0 }
    else
      let r := attemptLoop H net model model_path max_retries
        (List.range' 1 max_retries) fs0
      { result := Except.ok r.1, fs := r.2.1, sleeps := r.2.2.1,
        attempts := r.2.2.2 }

/-! ### The batch operation `ModelManager.download_all` -/

/-- The sequential loop of `download_all` over the names still to download,
threading the filesystem through the per-model `download_model` calls and
tallying `(successes, failures)`. A raised `ModelNotFoundError` would
propagate (shown impossible for names coming from the catalog). Also
returns the total number of `_download_file` calls made. -/
def downloadAllLoop (H : HashFns) (net : String → Nat → Network)
    (models : List ModelInfo) (comfyui_path : String) (max_retries : Nat) :
    List String → FS → Except ModelNotFoundErr ((Nat × Nat) × FS × Nat)
  | [], fs => Except.ok ((0, 0), fs, 0)
  | name :: rest, fs =>
    let r := download_model H (net name) models comfyui_path max_retries
      fs name false
    match r.result with
    | Except.error e => Except.error e
    | Except.ok b =>
      match downloadAllLoop H net models comfyui_path max_retries rest r.fs with
      | Except.error e => Except.error e
      | Except.ok ((s, f), fs1, a) =>
        Except.ok ((if b then s + 1 else s, if b then f else f + 1), fs1,
          r.attempts + a)

/-- The `to_download` list of `download_all`: the names whose status in
`check_installed` is not `INSTALLED` (all names when `skip_existing` is
off), in catalog order. -/
def names_to_download (H : HashFns) (fs0 : FS) (comfyui_path : String)
    (models : List ModelInfo) (skip_existing : Bool) : List String :=
  ((check_installed H fs0 comfyui_path models).filter
    (fun p => !skip_existing || !(p.2 = ModelStatus.INSTALLED))).map Prod.fst

/-- `ModelManager.download_all`: compute statuses, keep the names that are
not `INSTALLED` (or all names when `skip_existing` is off), short-circuit
to `(len(models), 0)` when nothing is left to download, else run the
sequential loop. `net name attempt` is the network during attempt
`attempt` for model `name`. -/
def download_all (H : HashFns) (net : String → Nat → Network)
    (models : List ModelInfo) (comfyui_path : String) (max_retries : Nat)
    (fs0 : FS) (skip_existing : Bool) :
    Except ModelNotFoundErr ((Nat × Nat) × FS × Nat) :=
  let to_download := names_to_download H fs0 comfyui_path models skip_existing
  if to_download = [] then
    Except.ok ((models.length, 0), fs0, 0)
  else
    downloadAllLoop H net models comfyui_path max_retries to_download fs0

/-! ### Catalog construction `ModelManager._load_models_config` -/

/-- One raw manifest entry: `None` marks an absent key. `name`, `type`,
`url` and `filename` are accessed with `[...]` (a missing one raises
`KeyError`); the rest use `.get` with defaults. -/
structure RawModel where
  name : Option String
  type : Option String
  url : Option String
  filename : Option String
  size : Option Nat
  checksum : Option String
  checksum_type : Option String
  destination : Option String
deriving DecidableEq, Repr

/-- What `yaml.safe_load` produced from a manifest file that exists:
a falsy document (empty file / empty mapping), a truthy document without a
top-level `models` key, or a document with one. -/
inductive ParsedDoc
  | falsyDoc
  | noModelsKey
  | withModels (entries : List RawModel)
deriving DecidableEq, Repr

/-- The manifest file: missing, or present with the given parse result
(`Except.error` = `yaml.safe_load` raised). -/
inductive ManifestFile
  | missing
  | present (parse : Except Unit ParsedDoc)
deriving Repr

/-- Result of `_load_models_config` (run during `__init__`): the catalog
it leaves in `self.models`, or `raised` when an exception propagates out
of the constructor (the `except` clause logs and re-raises). -/
inductive LoadResult
  | loaded (models : List ModelInfo)
  | raised
deriving DecidableEq, Repr

/-- Building one `ModelInfo` from a raw entry; `none` when a required key
is missing (Python raises `KeyError`, caught and re-raised). -/
def processEntry (r : RawModel) : Option ModelInfo :=
  match r.name, r.type, r.url, r.filename with
  | some n, some t, some u, some f =>
    some { name := n, type := t, url := u, filename := f,
           size := r.size.getD 0, checksum := r.checksum,
           checksum_type := r.checksum_type.getD "md5",
           destination := r.destination.getD "" }
  | _, _, _, _ => none

/-- `self.models[model_info.name] = model_info` on an insertion-ordered
dict: replace in place when the name exists, else append. -/
def upsert : List ModelInfo → ModelInfo → List ModelInfo
  | [], m => [m]
  | x :: xs, m => if x.name == m.name then m :: xs else x :: upsert xs m

/-- The `for model_data in config['models']` loop, accumulating the dict. -/
def processEntries : List RawModel → List ModelInfo → LoadResult
  | [], acc => LoadResult.loaded acc
  | r :: rest, acc =>
    match processEntry r with
    | none => LoadResult.raised
    | some m => processEntries rest (upsert acc m)

/-- `ModelManager._load_models_config`: a missing file logs a warning and
leaves the catalog empty; a parse exception is re-raised; a falsy document
or one without a `models` key logs a warning and leaves the catalog empty;
otherwise each entry is processed in order (a malformed entry raises). -/
def load_models_config : ManifestFile → LoadResult
  | ManifestFile.missing => LoadResult.loaded []
  | ManifestFile.present (Except.error _) => LoadResult.raised
  | ManifestFile.present (Except.ok ParsedDoc.falsyDoc) => LoadResult.loaded []
  | ManifestFile.present (Except.ok ParsedDoc.noModelsKey) => LoadResult.loaded []
  | ManifestFile.present (Except.ok (ParsedDoc.withModels es)) =>
    processEntries es []

/-! ### Concrete instances used by the witness theorems -/

/-- A concrete digest record for witnesses. -/
def hashConst : HashFns :=
  { md5Hex := fun _ => "aa", sha256Hex := fun _ => "bb" }

/-- The empty filesystem. -/
def fsNone : FS := fun _ => none

/-- A filesystem holding exactly one file. -/
def fsOneFile : FS :=
  fun q => if q = "root/models/vae/m.bin" then some [7] else none

/-- A filesystem holding only the staging file of `modelA`. -/
def fsPartOnly : FS :=
  fun q => if q = "root/models/vae/m.bin.part" then some [1, 2] else none

/-- A concrete catalog entry for witnesses. -/
def modelA : ModelInfo :=
  { name := "A", type := "vae", url := "u", filename := "m.bin", size := 1,
    checksum := some "aa", checksum_type := "md5", destination := "" }

/-- A concrete catalog entry without a declared checksum. -/
def modelB : ModelInfo :=
  { name := "B", type := "vae", url := "u", filename := "m.bin", size := 1,
    checksum := none, checksum_type := "md5", destination := "" }

/-- A network whose every request raises. -/
def netFail : Network :=
  { respond := fun _ _ =>
      { ok := false, contentLength := none, chunks := [], streamFails := false } }

/-- A network that serves a two-chunk body of declared length 3. -/
def netGood : Network :=
  { respond := fun _ _ =>
      { ok := true, contentLength := some 3, chunks := [[1], [2, 3]],
        streamFails := false } }

/-- A network that delivers one chunk and then fails mid-stream. -/
def netMidFail : Network :=
  { respond := fun _ _ =>
      { ok := true, contentLength := some 3, chunks := [[1]],
        streamFails := true } }

/-! ## Theorems -/

/-! ### Generic helper lemmas -/

/-- The staging path differs from the final path. -/
theorem part_path_ne (destination : String) :
    part_path destination ≠ destination := by
  intro h
  have h2 := congrArg String.length h
  have h3 : (".part" : String).length = 5 := rfl
  rw [part_path, String.length_append, h3] at h2
  omega

/-- The chunk loop performs only `writeChunk` operations on the staging
path. -/
theorem writeLoop_ops_staging (tmp : String) (total : Nat)
    (chunks : List (List Nat)) :
    ∀ (fs : FS) (d : Nat) (op : FsOp),
      op ∈ (writeLoop tmp total chunks fs d).2.1 →
      ∃ c, op = FsOp.writeChunk tmp c := by
  induction chunks with
  | nil => intro fs d op h; simp [writeLoop] at h
  | cons c rest ih =>
    intro fs d op h
    by_cases hc : c = []
    · rw [writeLoop] at h
      simp only [if_pos hc] at h
      exact ih _ _ _ h
    · rw [writeLoop] at h
      simp only [if_neg hc, List.mem_cons] at h
      rcases h with h | h
      · exact ⟨c, h⟩
      · exact ih _ _ _ h

/-- The chunk loop leaves every path other than the staging path
untouched. -/
theorem writeLoop_fs_other (tmp : String) (total : Nat)
    (chunks : List (List Nat)) :
    ∀ (fs : FS) (d : Nat) (q : String), q ≠ tmp →
      (writeLoop tmp total chunks fs d).1 q = fs q := by
  induction chunks with
  | nil => intro fs d q _; simp [writeLoop]
  | cons c rest ih =>
    intro fs d q hq
    by_cases hc : c = []
    · rw [writeLoop]; simp only [if_pos hc]; exact ih _ _ _ hq
    · rw [writeLoop]
      simp only [if_neg hc]
      rw [ih _ _ _ hq]
      simp [fsWrite, hq]

/-- The chunk loop appends exactly the flattened chunk bodies to the
staging file. -/
theorem writeLoop_fs_tmp (tmp : String) (total : Nat)
    (chunks : List (List Nat)) :
    ∀ (fs : FS) (d : Nat) (a : List Nat), fs tmp = some a →
      (writeLoop tmp total chunks fs d).1 tmp = some (a ++ chunks.flatten) := by
  induction chunks with
  | nil => intro fs d a ha; simp [writeLoop, ha]
  | cons c rest ih =>
    intro fs d a ha
    by_cases hc : c = []
    · rw [writeLoop]
      simp only [if_pos hc]
      rw [ih _ _ a ha]
      simp [hc]
    · rw [writeLoop]
      simp only [if_neg hc]
      have hw : (fsWrite fs tmp (((fs tmp).getD []) ++ c)) tmp =
          some (a ++ c) := by
        simp [fsWrite, ha]
      rw [ih _ _ (a ++ c) hw]
      simp [List.append_assoc]

/-- The chunk loop's progress events are the cumulative per-chunk trace. -/
theorem writeLoop_events (tmp : String) (total : Nat)
    (chunks : List (List Nat)) :
    ∀ (fs : FS) (d : Nat),
      (writeLoop tmp total chunks fs d).2.2 = chunk_events total d chunks := by
  induction chunks with
  | nil => intro fs d; simp [writeLoop, chunk_events]
  | cons c rest ih =>
    intro fs d
    by_cases hc : c = []
    · rw [writeLoop, chunk_events]
      simp only [if_pos hc]
      exact ih _ _
    · rw [writeLoop, chunk_events]
      simp only [if_neg hc]
      rw [ih _ _]

/-! ### C6 — `_verify_checksum` dispatch and comparison -/

/-- C6: `_verify_checksum` returns `true` whenever the expected checksum is
empty or absent, independent of the file's content; for a declared checksum
with a recognized algorithm (`md5` or `sha256`, matched case-insensitively)
it returns `true` exactly when the computed hex digest equals the expected
one under case-insensitive comparison; for an unrecognized algorithm name
on an existing file it returns `true` (fail-open). -/
theorem C6_verify_checksum_dispatch (H : HashFns) (fs : FS) (p ctype : String) :
    (∀ e : Option String, truthyOpt e = false →
       verify_checksum H fs p e ctype = true)
    ∧ (∀ (e : String) (content : List Nat), ¬(e = "") → fs p = some content →
        strLower ctype = "md5" →
        (verify_checksum H fs p (some e) ctype = true ↔
          strLower (H.md5Hex content) = strLower e))
    ∧ (∀ (e : String) (content : List Nat), ¬(e = "") → fs p = some content →
        strLower ctype = "sha256" →
        (verify_checksum H fs p (some e) ctype = true ↔
          strLower (H.sha256Hex content) = strLower e))
    ∧ (∀ (e : String) (content : List Nat), ¬(e = "") → fs p = some content →
        ¬(strLower ctype = "md5") → ¬(strLower ctype = "sha256") →
        verify_checksum H fs p (some e) ctype = true) := by
  refine ⟨?_, ?_, ?_, ?_⟩
  · intro e he
    match e with
    | none => rfl
    | some s =>
      simp only [truthyOpt, Bool.not_eq_false', beq_iff_eq] at he
      simp [verify_checksum, he]
  · intro e content he hfs hmd5
    simp [verify_checksum, he, hfs, hmd5]
  · intro e content he hfs hsha
    simp [verify_checksum, he, hfs, hsha]
  · intro e content he hfs h1 h2
    simp [verify_checksum, he, hfs, h1, h2]

/-- Witness for C6 at a concrete file, digest and algorithm name. -/
theorem C6_witness :
    verify_checksum hashConst fsOneFile "root/models/vae/m.bin" (some "AA")
      "MD5" = true := by
  have h := (C6_verify_checksum_dispatch hashConst fsOneFile
    "root/models/vae/m.bin" "MD5").2.1 "AA" [7] (by decide) (by decide)
    (by decide)
  exact h.mpr (by decide)

/-! ### C10 — missing file fails closed for every algorithm name -/

/-- C10: with a non-empty expected checksum and no file at the path,
`_verify_checksum` returns `false` for every `checksum_type` string — the
existence check precedes the algorithm dispatch, so fail-open on unknown
algorithms applies only to files present on disk. -/
theorem C10_missing_file_fails_closed (H : HashFns) (fs : FS)
    (p e ctype : String) (he : ¬(e = "")) (hp : fs p = none) :
    verify_checksum H fs p (some e) ctype = false := by
  simp [verify_checksum, he, hp]

/-- Witness for C10 with an unrecognized algorithm name on an empty
filesystem. -/
theorem C10_witness :
    verify_checksum hashConst fsNone "root/models/vae/m.bin" (some "aa")
      "whirlpool" = false :=
  C10_missing_file_fails_closed hashConst fsNone "root/models/vae/m.bin"
    "aa" "whirlpool" (by decide) rfl

/-! ### C1 — `check_installed` classification -/

/-- C1: for every catalog artifact, `check_installed` reports
`NOT_INSTALLED` when no file exists at the resolved destination path,
`CORRUPTED` when a file exists, a checksum is declared and verification
fails, and `INSTALLED` otherwise; when only the `.part` staging file exists
the status is never `INSTALLED`. -/
theorem C1_check_installed_classification (H : HashFns) (fs : FS)
    (comfyui_path : String) (models : List ModelInfo) (m : ModelInfo)
    (hm : m ∈ models) :
    ((m.name, check_status H fs comfyui_path m) ∈
      check_installed H fs comfyui_path models)
    ∧ (fs (get_model_path comfyui_path m) = none →
        check_status H fs comfyui_path m = ModelStatus.NOT_INSTALLED)
    ∧ (∀ content, fs (get_model_path comfyui_path m) = some content →
        truthyOpt m.checksum = true →
        verify_checksum H fs (get_model_path comfyui_path m) m.checksum
          m.checksum_type = false →
        check_status H fs comfyui_path m = ModelStatus.CORRUPTED)
    ∧ (∀ content, fs (get_model_path comfyui_path m) = some content →
        (truthyOpt m.checksum = false ∨
          verify_checksum H fs (get_model_path comfyui_path m) m.checksum
            m.checksum_type = true) →
        check_status H fs comfyui_path m = ModelStatus.INSTALLED)
    ∧ (∀ c, fs (part_path (get_model_path comfyui_path m)) = some c →
        fs (get_model_path comfyui_path m) = none →
        check_status H fs comfyui_path m ≠ ModelStatus.INSTALLED) := by
  refine ⟨?_, ?_, ?_, ?_, ?_⟩
  · simp only [check_installed, List.mem_map]
    exact ⟨m, hm, rfl⟩
  · intro hfs
    simp [check_status, hfs]
  · intro content hfs hchk hver
    simp [check_status, hfs, hchk, hver]
  · intro content hfs hor
    rcases hor with h | h
    · simp [check_status, hfs, h]
    · simp [check_status, hfs, h]
  · intro c _ hfs
    simp [check_status, hfs]

/-- Witness for C1: when only the staging file exists, the reported status
is `NOT_INSTALLED`, in particular not `INSTALLED`. -/
theorem C1_witness :
    check_status hashConst fsPartOnly "root" modelA ≠ ModelStatus.INSTALLED := by
  have h := (C1_check_installed_classification hashConst fsPartOnly "root"
    [modelA] modelA (by simp)).2.2.2.2 [1, 2] (by decide) (by decide)
  exact h

/-! ### C8 — catalog construction on bad manifests (corrected) -/

/-- C8 counterexample: a manifest that is present, parses, but lacks the
required top-level `models` list does NOT make catalog construction fail —
`_load_models_config` logs a warning and leaves an empty catalog, exactly
as for a missing file. -/
theorem C8_counterexample :
    load_models_config (ManifestFile.present (Except.ok ParsedDoc.noModelsKey))
      ≠ LoadResult.raised
    ∧ load_models_config (ManifestFile.present (Except.ok ParsedDoc.noModelsKey))
      = LoadResult.loaded [] := by
  exact ⟨by decide, rfl⟩

/-- C8 (amended): catalog construction fails when the manifest file is
present but unparsable (the caught exception is re-raised); when the
manifest file is missing, or is present but missing the required top-level
artifact list, construction does not fail and yields an empty catalog
(degraded, logged condition). -/
theorem C8_amended_manifest_loading :
    (∀ err, load_models_config (ManifestFile.present (Except.error err))
        = LoadResult.raised)
    ∧ load_models_config ManifestFile.missing = LoadResult.loaded []
    ∧ load_models_config (ManifestFile.present (Except.ok ParsedDoc.noModelsKey))
        = LoadResult.loaded [] := by
  exact ⟨fun _ => rfl, rfl, rfl⟩

/-! ### Case characterizations of `_download_file` -/

/-- When the request itself raises, nothing is written and no event fires. -/
theorem download_file_eq_reqFail (net : Network) (fs0 : FS)
    (url destination : String)
    (h : (dlResp net fs0 url destination).ok = false) :
    download_file net fs0 url destination =
      { ok := false, fs := fs0, ops := [], events := [],
        rangeStart := range_header fs0 destination } := by
  unfold dlResp at h
  unfold download_file
  simp [h]

/-- When the stream raises mid-transfer, the call fails after the open and
the chunk writes performed so far. -/
theorem download_file_eq_streamFail (net : Network) (fs0 : FS)
    (url destination : String)
    (hok : (dlResp net fs0 url destination).ok = true)
    (hsf : (dlResp net fs0 url destination).streamFails = true) :
    download_file net fs0 url destination =
      { ok := false, fs := (dlLoop net fs0 url destination).1,
        ops := FsOp.openWrite (part_path destination)
            (decide (resume_len fs0 destination > 0))
          :: (dlLoop net fs0 url destination).2.1,
        events := (resume_len fs0 destination,
            total_size_of fs0 destination (dlResp net fs0 url destination))
          :: (dlLoop net fs0 url destination).2.2,
        rangeStart := range_header fs0 destination } := by
  unfold dlLoop
  unfold dlResp at hok hsf ⊢
  unfold download_file
  simp [hok, hsf]

/-- When the stream completes, the call succeeds and ends in the rename. -/
theorem download_file_eq_success (net : Network) (fs0 : FS)
    (url destination : String)
    (hok : (dlResp net fs0 url destination).ok = true)
    (hsf : (dlResp net fs0 url destination).streamFails = false) :
    download_file net fs0 url destination =
      { ok := true,
        fs := fsRename (dlLoop net fs0 url destination).1
          (part_path destination) destination,
        ops := (FsOp.openWrite (part_path destination)
            (decide (resume_len fs0 destination > 0))
          :: (dlLoop net fs0 url destination).2.1)
          ++ [FsOp.rename (part_path destination) destination],
        events := (resume_len fs0 destination,
            total_size_of fs0 destination (dlResp net fs0 url destination))
          :: (dlLoop net fs0 url destination).2.2,
        rangeStart := range_header fs0 destination } := by
  unfold dlLoop
  unfold dlResp at hok hsf ⊢
  unfold download_file
  simp [hok, hsf]

/-- The chunk loop of a call leaves the staging file holding the surviving
prior bytes followed by every delivered chunk body. -/
theorem dlLoop_fs_staging (net : Network) (fs0 : FS)
    (url destination : String) :
    (dlLoop net fs0 url destination).1 (part_path destination)
      = some (resumed_bytes fs0 destination
          ++ (dlResp net fs0 url destination).chunks.flatten) := by
  unfold dlLoop
  apply writeLoop_fs_tmp
  simp [fsWrite]

/-- The chunk loop of a call touches no path other than the staging file. -/
theorem dlLoop_fs_other (net : Network) (fs0 : FS)
    (url destination : String) (q : String)
    (hq : q ≠ part_path destination) :
    (dlLoop net fs0 url destination).1 q = fs0 q := by
  unfold dlLoop
  rw [writeLoop_fs_other _ _ _ _ _ _ hq]
  simp [fsWrite, hq]

/-- The chunk loop of a call performs only `writeChunk` operations on the
staging path. -/
theorem dlLoop_ops (net : Network) (fs0 : FS) (url destination : String) :
    ∀ op ∈ (dlLoop net fs0 url destination).2.1,
      ∃ c, op = FsOp.writeChunk (part_path destination) c := by
  unfold dlLoop
  intro op hop
  exact writeLoop_ops_staging _ _ _ _ _ _ hop

/-! ### C2 — staging-only writes and a single atomic rename -/

/-- C2: during a fetch all bytes go only to the staging file
(`destination ++ ".part"`): every open and every chunk write targets it;
on success the operation sequence ends in exactly one rename of the staging
file onto the destination, performed after all writes; on any failure no
rename happens, the file at the final destination path is unchanged, and a
mid-stream failure leaves the staging file holding exactly the bytes
written so far; a successful call leaves the complete stream at the final
path. -/
theorem C2_staging_and_atomic_rename (net : Network) (fs0 : FS)
    (url destination : String) :
    (∀ p c, FsOp.writeChunk p c ∈ (download_file net fs0 url destination).ops →
      p = part_path destination)
    ∧ (∀ p b, FsOp.openWrite p b ∈ (download_file net fs0 url destination).ops →
      p = part_path destination)
    ∧ ((download_file net fs0 url destination).ok = true →
      ∃ ops0, (download_file net fs0 url destination).ops
          = ops0 ++ [FsOp.rename (part_path destination) destination]
        ∧ ∀ s d, FsOp.rename s d ∉ ops0)
    ∧ ((download_file net fs0 url destination).ok = false →
      (∀ s d, FsOp.rename s d ∉ (download_file net fs0 url destination).ops)
      ∧ (download_file net fs0 url destination).fs destination = fs0 destination)
    ∧ ((dlResp net fs0 url destination).ok = true →
      (dlResp net fs0 url destination).streamFails = true →
      (download_file net fs0 url destination).ok = false
      ∧ (download_file net fs0 url destination).fs (part_path destination)
        = some (resumed_bytes fs0 destination
            ++ (dlResp net fs0 url destination).chunks.flatten))
    ∧ ((download_file net fs0 url destination).ok = true →
      (download_file net fs0 url destination).fs destination
        = some (resumed_bytes fs0 destination
            ++ (dlResp net fs0 url destination).chunks.flatten)) := by
  have hdne : destination ≠ part_path destination :=
    fun h => part_path_ne destination h.symm
  cases hok : (dlResp net fs0 url destination).ok with
  | false =>
    rw [download_file_eq_reqFail net fs0 url destination hok]
    refine ⟨?_, ?_, ?_, ?_, ?_, ?_⟩
    · intro p c h; simp at h
    · intro p b h; simp at h
    · intro h; simp at h
    · intro _; exact ⟨fun s d hm => by simp at hm, rfl⟩
    · intro h1 _; simp at h1
    · intro h; simp at h
  | true =>
    cases hsf : (dlResp net fs0 url destination).streamFails with
    | true =>
      rw [download_file_eq_streamFail net fs0 url destination hok hsf]
      refine ⟨?_, ?_, ?_, ?_, ?_, ?_⟩
      · intro p c h
        simp only [List.mem_cons] at h
        rcases h with h | h
        · cases h
        · obtain ⟨c', hc⟩ := dlLoop_ops net fs0 url destination _ h
          cases hc; rfl
      · intro p b h
        simp only [List.mem_cons] at h
        rcases h with h | h
        · cases h; rfl
        · obtain ⟨c', hc⟩ := dlLoop_ops net fs0 url destination _ h
          cases hc
      · intro h; simp at h
      · intro _
        constructor
        · intro s d hm
          simp only [List.mem_cons] at hm
          rcases hm with hm | hm
          · cases hm
          · obtain ⟨c', hc⟩ := dlLoop_ops net fs0 url destination _ hm
            cases hc
        · exact dlLoop_fs_other net fs0 url destination destination hdne
      · intro _ _
        exact ⟨rfl, dlLoop_fs_staging net fs0 url destination⟩
      · intro h; simp at h
    | false =>
      rw [download_file_eq_success net fs0 url destination hok hsf]
      refine ⟨?_, ?_, ?_, ?_, ?_, ?_⟩
      · intro p c h
        simp only [List.mem_append, List.mem_cons, List.not_mem_nil,
          or_false] at h
        rcases h with (h | h) | h
        · cases h
        · obtain ⟨c', hc⟩ := dlLoop_ops net fs0 url destination _ h
          cases hc; rfl
        · cases h
      · intro p b h
        simp only [List.mem_append, List.mem_cons, List.not_mem_nil,
          or_false] at h
        rcases h with (h | h) | h
        · cases h; rfl
        · obtain ⟨c', hc⟩ := dlLoop_ops net fs0 url destination _ h
          cases hc
        · cases h
      · intro _
        refine ⟨FsOp.openWrite (part_path destination)
          (decide (resume_len fs0 destination > 0))
          :: (dlLoop net fs0 url destination).2.1, rfl, ?_⟩
        intro s d hm
        simp only [List.mem_cons] at hm
        rcases hm with hm | hm
        · cases hm
        · obtain ⟨c', hc⟩ := dlLoop_ops net fs0 url destination _ hm
          cases hc
      · intro h; simp at h
      · intro _ h2; simp at h2
      · intro _
        show fsRename (dlLoop net fs0 url destination).1
          (part_path destination) destination destination = _
        rw [fsRename]
        simp only [if_pos rfl]
        exact dlLoop_fs_staging net fs0 url destination

/-- Witness for C2: a concrete mid-stream failure leaves the destination
untouched and the call unsuccessful. -/
theorem C2_witness :
    (download_file netMidFail fsNone "u" "d").ok = false
    ∧ (download_file netMidFail fsNone "u" "d").fs "d" = fsNone "d" := by
  have h := C2_staging_and_atomic_rename netMidFail fsNone "u" "d"
  have hok : (dlResp netMidFail fsNone "u" "d").ok = true := rfl
  have hsf : (dlResp netMidFail fsNone "u" "d").streamFails = true := rfl
  have h5 := h.2.2.2.2.1 hok hsf
  exact ⟨h5.1, (h.2.2.2.1 h5.1).2⟩

/-! ### C3 — resume protocol, totals and progress events -/

/-- Every event of the cumulative trace carries the fixed total. -/
theorem chunk_events_snd (total : Nat) (chunks : List (List Nat)) :
    ∀ d ev, ev ∈ chunk_events total d chunks → ev.2 = total := by
  induction chunks with
  | nil => intro d ev h; simp [chunk_events] at h
  | cons c rest ih =>
    intro d ev h
    by_cases hc : c = []
    · rw [chunk_events] at h
      simp only [if_pos hc] at h
      exact ih _ _ h
    · rw [chunk_events] at h
      simp only [if_neg hc, List.mem_cons] at h
      rcases h with h | h
      · rw [h]
      · exact ih _ _ h

/-- The chunk loop's events of a call are the cumulative trace starting
from the resume offset. -/
theorem dlLoop_events (net : Network) (fs0 : FS) (url destination : String) :
    (dlLoop net fs0 url destination).2.2 =
      chunk_events
        (total_size_of fs0 destination (dlResp net fs0 url destination))
        (resume_len fs0 destination)
        (dlResp net fs0 url destination).chunks := by
  unfold dlLoop
  exact writeLoop_events _ _ _ _ _

/-- The range header of the single request is always `range_header`. -/
theorem download_file_rangeStart (net : Network) (fs0 : FS)
    (url destination : String) :
    (download_file net fs0 url destination).rangeStart
      = range_header fs0 destination := by
  cases hok : (dlResp net fs0 url destination).ok with
  | false => rw [download_file_eq_reqFail net fs0 url destination hok]
  | true =>
    cases hsf : (dlResp net fs0 url destination).streamFails with
    | true => rw [download_file_eq_streamFail net fs0 url destination hok hsf]
    | false => rw [download_file_eq_success net fs0 url destination hok hsf]

/-- C3: a staging file of size `K > 0` makes `_download_file` send a byte
range starting at `K` and open the staging file in append mode, so the old
bytes survive in front of the new ones; otherwise a full request is sent
and the staging file is truncated. The total passed to the progress
callback is the server-reported content length plus `K` when resuming, the
content length alone when not, and 0 when the server reports no length and
nothing is resumed; the callback fires once before the loop and then after
each chunk write with the cumulative byte count. -/
theorem C3_resume_protocol_and_progress (net : Network) (fs0 : FS)
    (url destination : String) :
    (resume_len fs0 destination > 0 →
      (download_file net fs0 url destination).rangeStart
        = some (resume_len fs0 destination))
    ∧ (resume_len fs0 destination = 0 →
      (download_file net fs0 url destination).rangeStart = none)
    ∧ ((dlResp net fs0 url destination).ok = true →
      (download_file net fs0 url destination).ops.head?
        = some (FsOp.openWrite (part_path destination)
            (decide (resume_len fs0 destination > 0))))
    ∧ ((dlResp net fs0 url destination).ok = true →
      ∀ c0, fs0 (part_path destination) = some c0 → 0 < c0.length →
      ((download_file net fs0 url destination).ok = false →
        (download_file net fs0 url destination).fs (part_path destination)
          = some (c0 ++ (dlResp net fs0 url destination).chunks.flatten))
      ∧ ((download_file net fs0 url destination).ok = true →
        (download_file net fs0 url destination).fs destination
          = some (c0 ++ (dlResp net fs0 url destination).chunks.flatten)))
    ∧ ((dlResp net fs0 url destination).ok = true →
      resume_len fs0 destination = 0 →
      ((download_file net fs0 url destination).ok = false →
        (download_file net fs0 url destination).fs (part_path destination)
          = some (dlResp net fs0 url destination).chunks.flatten)
      ∧ ((download_file net fs0 url destination).ok = true →
        (download_file net fs0 url destination).fs destination
          = some (dlResp net fs0 url destination).chunks.flatten))
    ∧ ((dlResp net fs0 url destination).ok = true →
      (download_file net fs0 url destination).events
        = (resume_len fs0 destination,
            total_size_of fs0 destination (dlResp net fs0 url destination))
          :: chunk_events
            (total_size_of fs0 destination (dlResp net fs0 url destination))
            (resume_len fs0 destination)
            (dlResp net fs0 url destination).chunks)
    ∧ (∀ ev ∈ (download_file net fs0 url destination).events,
      ev.2 = total_size_of fs0 destination (dlResp net fs0 url destination))
    ∧ (resume_len fs0 destination > 0 →
      ∀ L, (dlResp net fs0 url destination).contentLength = some L →
      total_size_of fs0 destination (dlResp net fs0 url destination)
        = L + resume_len fs0 destination)
    ∧ (resume_len fs0 destination = 0 →
      ∀ L, (dlResp net fs0 url destination).contentLength = some L →
      total_size_of fs0 destination (dlResp net fs0 url destination) = L)
    ∧ (resume_len fs0 destination = 0 →
      (dlResp net fs0 url destination).contentLength = none →
      total_size_of fs0 destination (dlResp net fs0 url destination) = 0) := by
  have hrng := download_file_rangeStart net fs0 url destination
  refine ⟨?_, ?_, ?_, ?_, ?_, ?_, ?_, ?_, ?_, ?_⟩
  · intro hK
    rw [hrng, range_header, if_pos hK]
  · intro hK
    rw [hrng, range_header]
    simp [hK]
  · intro hok
    cases hsf : (dlResp net fs0 url destination).streamFails with
    | true =>
      rw [download_file_eq_streamFail net fs0 url destination hok hsf]
      rfl
    | false =>
      rw [download_file_eq_success net fs0 url destination hok hsf]
      rfl
  · intro hok c0 hc0 hlen
    have hK : resume_len fs0 destination = c0.length := by
      simp [resume_len, hc0]
    have hres : resumed_bytes fs0 destination = c0 := by
      rw [resumed_bytes, hK]
      simp [hlen, hc0]
    have hst := dlLoop_fs_staging net fs0 url destination
    rw [hres] at hst
    cases hsf : (dlResp net fs0 url destination).streamFails with
    | true =>
      rw [download_file_eq_streamFail net fs0 url destination hok hsf]
      constructor
      · intro _
        exact hst
      · intro h; simp at h
    | false =>
      rw [download_file_eq_success net fs0 url destination hok hsf]
      constructor
      · intro h; simp at h
      · intro _
        show fsRename (dlLoop net fs0 url destination).1
          (part_path destination) destination destination = _
        rw [fsRename]
        simp only [if_pos rfl]
        exact hst
  · intro hok hK
    have hres : resumed_bytes fs0 destination = [] := by
      rw [resumed_bytes, hK]
      simp
    have hst := dlLoop_fs_staging net fs0 url destination
    rw [hres, List.nil_append] at hst
    cases hsf : (dlResp net fs0 url destination).streamFails with
    | true =>
      rw [download_file_eq_streamFail net fs0 url destination hok hsf]
      constructor
      · intro _
        exact hst
      · intro h; simp at h
    | false =>
      rw [download_file_eq_success net fs0 url destination hok hsf]
      constructor
      · intro h; simp at h
      · intro _
        show fsRename (dlLoop net fs0 url destination).1
          (part_path destination) destination destination = _
        rw [fsRename]
        simp only [if_pos rfl]
        exact hst
  · intro hok
    cases hsf : (dlResp net fs0 url destination).streamFails with
    | true =>
      rw [download_file_eq_streamFail net fs0 url destination hok hsf,
        dlLoop_events net fs0 url destination]
    | false =>
      rw [download_file_eq_success net fs0 url destination hok hsf,
        dlLoop_events net fs0 url destination]
  · intro ev hev
    cases hok : (dlResp net fs0 url destination).ok with
    | false =>
      rw [download_file_eq_reqFail net fs0 url destination hok] at hev
      simp at hev
    | true =>
      cases hsf : (dlResp net fs0 url destination).streamFails with
      | true =>
        rw [download_file_eq_streamFail net fs0 url destination hok hsf] at hev
        simp only [List.mem_cons] at hev
        rcases hev with hev | hev
        · rw [hev]
        · rw [dlLoop_events net fs0 url destination] at hev
          exact chunk_events_snd _ _ _ _ hev
      | false =>
        rw [download_file_eq_success net fs0 url destination hok hsf] at hev
        simp only [List.mem_cons] at hev
        rcases hev with hev | hev
        · rw [hev]
        · rw [dlLoop_events net fs0 url destination] at hev
          exact chunk_events_snd _ _ _ _ hev
  · intro hK L hL
    rw [total_size_of, if_pos hK, hL]
    rfl
  · intro hK L hL
    rw [total_size_of, hK, hL]
    rfl
  · intro hK hL
    rw [total_size_of, hK, hL]
    rfl

/-- Witness for C3: a fresh download with a declared length 3 sends no
range header and reports events `(0,3), (1,3), (3,3)`. -/
theorem C3_witness :
    (download_file netGood fsNone "u" "d").rangeStart = none
    ∧ (download_file netGood fsNone "u" "d").events
        = [(0, 3), (1, 3), (3, 3)] := by
  have h := C3_resume_protocol_and_progress netGood fsNone "u" "d"
  refine ⟨h.2.1 rfl, ?_⟩
  have h6 := h.2.2.2.2.2.1 rfl
  rw [h6]
  rfl

/-! ### Helper lemmas for the retry loop -/

/-- A falsy (absent or empty) expected checksum verifies trivially. -/
theorem verify_checksum_falsy (H : HashFns) (fs : FS) (p ctype : String)
    (chk : Option String) (h : truthyOpt chk = false) :
    verify_checksum H fs p chk ctype = true := by
  match chk with
  | none => rfl
  | some s =>
    simp only [truthyOpt, Bool.not_eq_false', beq_iff_eq] at h
    simp [verify_checksum, h]

/-- A truthy checksum can only verify on a file that exists. -/
theorem verify_checksum_isSome (H : HashFns) (fs : FS) (p ctype : String)
    (chk : Option String) (hchk : truthyOpt chk = true)
    (hver : verify_checksum H fs p chk ctype = true) :
    (fs p).isSome = true := by
  match chk with
  | none => simp [truthyOpt] at hchk
  | some e =>
    simp only [truthyOpt, Bool.not_eq_true', beq_eq_false_iff_ne, ne_eq] at hchk
    cases hfs : fs p with
    | none =>
      rw [verify_checksum] at hver
      simp [hchk, hfs] at hver
    | some c => rfl

/-- A successful `_download_file` call leaves the full streamed content at
the destination. -/
theorem download_file_ok_fs_dest (net : Network) (fs0 : FS)
    (url destination : String)
    (h : (download_file net fs0 url destination).ok = true) :
    (download_file net fs0 url destination).fs destination
      = some (resumed_bytes fs0 destination
          ++ (dlResp net fs0 url destination).chunks.flatten) := by
  cases hok : (dlResp net fs0 url destination).ok with
  | false =>
    rw [download_file_eq_reqFail net fs0 url destination hok] at h
    simp at h
  | true =>
    cases hsf : (dlResp net fs0 url destination).streamFails with
    | true =>
      rw [download_file_eq_streamFail net fs0 url destination hok hsf] at h
      simp at h
    | false =>
      rw [download_file_eq_success net fs0 url destination hok hsf]
      show fsRename (dlLoop net fs0 url destination).1
        (part_path destination) destination destination = _
      rw [fsRename]
      simp only [if_pos rfl]
      exact dlLoop_fs_staging net fs0 url destination

/-- Successive powers of two are strictly increasing along `range'`. -/
theorem chain_lt_pow_two_range (a len : Nat) :
    List.Chain' (· < ·) ((List.range' a len).map (2 ^ ·)) := by
  induction len generalizing a with
  | zero => simp
  | succ n ih =>
    cases n with
    | zero => simp
    | succ m =>
      rw [List.range'_succ, List.range'_succ, List.map_cons, List.map_cons,
        List.chain'_cons]
      constructor
      · exact Nat.pow_lt_pow_right one_lt_two (Nat.lt_succ_self a)
      · have hih := ih (a + 1)
        rw [List.range'_succ, List.map_cons] at hih
        exact hih

/-- With a fetcher that fails on every attempt, the retry loop over
attempts `a, …, a+len-1` (where `a+len-1 = max_retries`) fails, makes
`len` attempts and sleeps `2^a, …, 2^(max_retries-1)`. -/
theorem attemptLoop_all_fail (H : HashFns) (net : Nat → Network)
    (model : ModelInfo) (model_path : String) (max_retries : Nat)
    (hfail : ∀ i (fsx : FS),
      (download_file (net i) fsx model.url model_path).ok = false) :
    ∀ (len a : Nat) (fs : FS), a + len = max_retries + 1 →
      (attemptLoop H net model model_path max_retries
          (List.range' a len) fs).1 = false
      ∧ (attemptLoop H net model model_path max_retries
          (List.range' a len) fs).2.2.1
          = (List.range' a (len - 1)).map (2 ^ ·)
      ∧ (attemptLoop H net model model_path max_retries
          (List.range' a len) fs).2.2.2 = len := by
  intro len
  induction len with
  | zero => intro a fs _; simp [List.range', attemptLoop]
  | succ n ih =>
    intro a fs hsum
    rw [List.range'_succ]
    simp only [attemptLoop, hfail a fs, if_false, Bool.false_eq_true]
    cases n with
    | zero =>
      have hmax : a = max_retries := by omega
      have hlt : ¬(a < max_retries) := by omega
      simp [List.range', hlt]
    | succ m =>
      have hlt : a < max_retries := by omega
      have hih := ih (a + 1)
        ((download_file (net a) fs model.url model_path).fs) (by omega)
      simp only [hlt, if_true]
      refine ⟨hih.1, ?_, ?_⟩
      · rw [hih.2.1]
        have : (m + 1 + 1) - 1 = m + 1 := rfl
        rw [this, List.range'_succ, List.map_cons]
        rfl
      · rw [hih.2.2]

/-- With a fetcher that succeeds on every attempt but a checksum that never
verifies, the retry loop over attempts `a, …, a+len-1` (where
`a+len-1 = max_retries`) deletes the destination file each time, never
sleeps, makes `len` attempts and fails, leaving no file at the
destination. -/
theorem attemptLoop_verify_fail (H : HashFns) (net : Nat → Network)
    (model : ModelInfo) (model_path : String) (max_retries : Nat)
    (hchk : truthyOpt model.checksum = true)
    (hok : ∀ i (fsx : FS),
      (download_file (net i) fsx model.url model_path).ok = true)
    (hver : ∀ fsx : FS,
      verify_checksum H fsx model_path model.checksum model.checksum_type
        = false) :
    ∀ (len a : Nat) (fs : FS), a + len = max_retries + 1 →
      fs model_path = none →
      (attemptLoop H net model model_path max_retries
          (List.range' a len) fs).1 = false
      ∧ (attemptLoop H net model model_path max_retries
          (List.range' a len) fs).2.2.1 = []
      ∧ (attemptLoop H net model model_path max_retries
          (List.range' a len) fs).2.2.2 = len
      ∧ (attemptLoop H net model model_path max_retries
          (List.range' a len) fs).2.1 model_path = none := by
  intro len
  induction len with
  | zero =>
    intro a fs _ hfs
    simp [List.range', attemptLoop, hfs]
  | succ n ih =>
    intro a fs hsum hfs
    rw [List.range'_succ]
    simp only [attemptLoop, hok a fs, hchk,
      hver (download_file (net a) fs model.url model_path).fs, if_true,
      if_false, Bool.false_eq_true]
    cases n with
    | zero =>
      have hlt : ¬(a < max_retries) := by omega
      simp [List.range', hlt, fsRemove]
    | succ m =>
      have hlt : a < max_retries := by omega
      have hfs1 : fsRemove
          (download_file (net a) fs model.url model_path).fs model_path
          model_path = none := by
        simp [fsRemove]
      have hih := ih (a + 1)
        (fsRemove (download_file (net a) fs model.url model_path).fs
          model_path) (by omega) hfs1
      simp only [hlt, if_true]
      exact ⟨hih.1, hih.2.1, by rw [hih.2.2.1], hih.2.2.2⟩

/-- When the retry loop reports success, the destination file exists and
verifies in the final filesystem. -/
theorem attemptLoop_success_verified (H : HashFns) (net : Nat → Network)
    (model : ModelInfo) (model_path : String) (max_retries : Nat) :
    ∀ (attempts : List Nat) (fs : FS),
      (attemptLoop H net model model_path max_retries attempts fs).1 = true →
      (((attemptLoop H net model model_path max_retries attempts fs).2.1
          model_path).isSome = true)
      ∧ verify_checksum H
          (attemptLoop H net model model_path max_retries attempts fs).2.1
          model_path model.checksum model.checksum_type = true := by
  intro attempts
  induction attempts with
  | nil => intro fs h; simp [attemptLoop] at h
  | cons a rest ih =>
    intro fs h
    by_cases hdl : (download_file (net a) fs model.url model_path).ok = true
    · by_cases hchk : truthyOpt model.checksum = true
      · by_cases hver : verify_checksum H
            (download_file (net a) fs model.url model_path).fs model_path
            model.checksum model.checksum_type = true
        · simp only [attemptLoop, hdl, hchk, hver, if_true] at h ⊢
          exact ⟨verify_checksum_isSome H _ _ _ _ hchk hver, trivial⟩
        · by_cases hlt : a < max_retries
          · simp only [attemptLoop, hdl, hchk, hver, hlt, if_true, if_false,
              Bool.false_eq_true] at h ⊢
            exact ih _ h
          · simp only [attemptLoop, hdl, hchk, hver, hlt, if_true, if_false,
              Bool.false_eq_true] at h
      · simp only [attemptLoop, hdl, hchk, if_true, if_false,
          Bool.false_eq_true] at h ⊢
        constructor
        · rw [download_file_ok_fs_dest (net a) fs model.url model_path hdl]
          rfl
        · exact verify_checksum_falsy H _ _ _ _
            (Bool.not_eq_true _ ▸ hchk)
    · by_cases hlt : a < max_retries
      · simp only [attemptLoop, hdl, hlt, if_true, if_false,
          Bool.false_eq_true] at h ⊢
        exact ih _ h
      · simp only [attemptLoop, hdl, hlt, if_true, if_false,
          Bool.false_eq_true] at h

/-- The idempotent short-circuit of `download_model`: existing, verifying
file and no `force` → immediate success with no fetch call. -/
theorem download_model_early (H : HashFns) (net : Nat → Network)
    (models : List ModelInfo) (comfyui_path : String) (max_retries : Nat)
    (fs0 : FS) (model_name : String) (model : ModelInfo)
    (hfind : findModel models model_name = some model)
    (hsome : (fs0 (get_model_path comfyui_path model)).isSome = true)
    (hver : verify_checksum H fs0 (get_model_path comfyui_path model)
      model.checksum model.checksum_type = true) :
    download_model H net models comfyui_path max_retries fs0 model_name false
      = { result := Except.ok true, fs := fs0, sleeps := [], attempts := 0 } := by
  unfold download_model
  rw [hfind]
  simp [hsome, hver]

/-- When `download_model` returns `true`, the destination file exists and
verifies in the filesystem it leaves behind. -/
theorem download_model_ok_invariant (H : HashFns) (net : Nat → Network)
    (models : List ModelInfo) (comfyui_path : String) (max_retries : Nat)
    (fs0 : FS) (model_name : String) (force : Bool) (model : ModelInfo)
    (hfind : findModel models model_name = some model)
    (hres : (download_model H net models comfyui_path max_retries fs0
      model_name force).result = Except.ok true) :
    (((download_model H net models comfyui_path max_retries fs0 model_name
        force).fs (get_model_path comfyui_path model)).isSome = true)
    ∧ verify_checksum H
        (download_model H net models comfyui_path max_retries fs0 model_name
          force).fs
        (get_model_path comfyui_path model) model.checksum model.checksum_type
        = true := by
  unfold download_model at hres ⊢
  rw [hfind] at hres ⊢
  by_cases hc : ((fs0 (get_model_path comfyui_path model)).isSome && !force
      && verify_checksum H fs0 (get_model_path comfyui_path model)
           model.checksum model.checksum_type) = true
  · simp only [hc, if_true]
    simp only [Bool.and_eq_true] at hc
    exact ⟨hc.1.1, hc.2⟩
  · simp only [hc, if_false, Bool.false_eq_true] at hres ⊢
    simp only [Except.ok.injEq] at hres
    exact attemptLoop_success_verified H net model
      (get_model_path comfyui_path model) max_retries _ _ hres

/-! ### C5 — idempotent short-circuit -/

/-- C5: with the file already at the artifact's resolved destination path
and verifying (including the trivial no-checksum case), `download_model`
with `force = false` returns `true` immediately with zero fetch calls
(hence zero network requests); consequently a second call right after a
successful first call performs zero network requests. -/
theorem C5_idempotent_no_refetch (H : HashFns) (net : Nat → Network)
    (models : List ModelInfo) (comfyui_path : String) (max_retries : Nat)
    (fs0 : FS) (model_name : String) (model : ModelInfo)
    (hfind : findModel models model_name = some model) :
    (((fs0 (get_model_path comfyui_path model)).isSome = true →
      verify_checksum H fs0 (get_model_path comfyui_path model)
        model.checksum model.checksum_type = true →
      download_model H net models comfyui_path max_retries fs0 model_name false
        = { result := Except.ok true, fs := fs0, sleeps := [], attempts := 0 }))
    ∧ ((download_model H net models comfyui_path max_retries fs0 model_name
        false).result = Except.ok true →
      ∀ net2 : Nat → Network,
      download_model H net2 models comfyui_path max_retries
        (download_model H net models comfyui_path max_retries fs0 model_name
          false).fs model_name false
        = { result := Except.ok true,
            fs := (download_model H net models comfyui_path max_retries fs0
              model_name false).fs,
            sleeps := [], attempts := 0 }) := by
  constructor
  · intro hsome hver
    exact download_model_early H net models comfyui_path max_retries fs0
      model_name model hfind hsome hver
  · intro hres net2
    obtain ⟨hsome, hver⟩ := download_model_ok_invariant H net models
      comfyui_path max_retries fs0 model_name false model hfind hres
    exact download_model_early H net2 models comfyui_path max_retries _
      model_name model hfind hsome hver

/-- Witness for C5: a present no-checksum artifact short-circuits with zero
fetch attempts. -/
theorem C5_witness :
    download_model hashConst (fun _ => netFail) [modelB] "root" 3 fsOneFile
      "B" false
      = { result := Except.ok true, fs := fsOneFile, sleeps := [],
          attempts := 0 } := by
  have h := (C5_idempotent_no_refetch hashConst (fun _ => netFail) [modelB]
    "root" 3 fsOneFile "B" modelB (by decide)).1
  exact h (by decide) (by decide)

/-! ### C7 — unknown-name error vs. absorbed failures -/

/-- C7: `download_model` raises `ModelNotFoundError` exactly when the name
is not in the catalog — immediately, with no fetch attempt and no sleep —
and for any catalog name every transfer or integrity failure is absorbed
into a boolean result, never an exception. -/
theorem C7_unknown_name_only_error (H : HashFns) (net : Nat → Network)
    (models : List ModelInfo) (comfyui_path : String) (max_retries : Nat)
    (fs0 : FS) (model_name : String) (force : Bool) :
    ((∃ e, (download_model H net models comfyui_path max_retries fs0
        model_name force).result = Except.error e)
      ↔ findModel models model_name = none)
    ∧ (findModel models model_name = none →
      download_model H net models comfyui_path max_retries fs0 model_name force
        = { result := Except.error
              ⟨model_name, "Unknown", comfyui_path ++ "/" ++ "models"⟩,
            fs := fs0, sleeps := [], attempts := 0 })
    ∧ (∀ model, findModel models model_name = some model →
      ∃ b, (download_model H net models comfyui_path max_retries fs0
        model_name force).result = Except.ok b) := by
  cases hfind : findModel models model_name with
  | none =>
    have heq : download_model H net models comfyui_path max_retries fs0
        model_name force
        = { result := Except.error
              ⟨model_name, "Unknown", comfyui_path ++ "/" ++ "models"⟩,
            fs := fs0, sleeps := [], attempts := 0 } := by
      unfold download_model
      rw [hfind]
    refine ⟨⟨fun _ => rfl, fun _ => ⟨_, by rw [heq]⟩⟩, fun _ => heq, ?_⟩
    intro model hm
    exact Option.noConfusion hm
  | some model =>
    have hshape : ∃ b, (download_model H net models comfyui_path max_retries
        fs0 model_name force).result = Except.ok b := by
      unfold download_model
      rw [hfind]
      by_cases hc : ((fs0 (get_model_path comfyui_path model)).isSome && !force
          && verify_checksum H fs0 (get_model_path comfyui_path model)
               model.checksum model.checksum_type) = true
      · simp only [hc, if_true]
        exact ⟨true, rfl⟩
      · simp only [hc, if_false, Bool.false_eq_true]
        exact ⟨_, rfl⟩
    refine ⟨⟨?_, ?_⟩, ?_, ?_⟩
    · intro ⟨e, he⟩
      obtain ⟨b, hb⟩ := hshape
      rw [hb] at he
      cases he
    · intro h
      exact Option.noConfusion h
    · intro h
      exact Option.noConfusion h
    · intro model' _
      exact hshape

/-- Witness for C7: an empty catalog makes `download_model` fail with the
unknown-name error and zero attempts. -/
theorem C7_witness :
    download_model hashConst (fun _ => netFail) [] "root" 3 fsNone "X" false
      = { result := Except.error ⟨"X", "Unknown", "root" ++ "/" ++ "models"⟩,
          fs := fsNone, sleeps := [], attempts := 0 } := by
  exact (C7_unknown_name_only_error hashConst (fun _ => netFail) [] "root" 3
    fsNone "X" false).2.1 rfl

/-! ### C4 — retry budget, backoff, delete-on-corruption -/

/-- C4: for a catalog artifact that is not yet installed, a fetcher that
always fails makes `download_model` attempt exactly `max_retries` fetches,
sleep `2^attempt` seconds between consecutive attempts (a strictly
increasing sequence) and return `false`; a fetcher that always succeeds
while checksum verification always fails makes it delete the destination
file after each attempt, retry without sleeping, and return `false` with
the destination file absent after the budget is exhausted. -/
theorem C4_retry_budget_and_backoff (H : HashFns) (net : Nat → Network)
    (models : List ModelInfo) (comfyui_path : String) (max_retries : Nat)
    (fs0 : FS) (model_name : String) (model : ModelInfo)
    (hfind : findModel models model_name = some model)
    (hnone : fs0 (get_model_path comfyui_path model) = none) :
    ((∀ i (fsx : FS), (download_file (net i) fsx model.url
        (get_model_path comfyui_path model)).ok = false) →
      (download_model H net models comfyui_path max_retries fs0 model_name
        false).result = Except.ok false
      ∧ (download_model H net models comfyui_path max_retries fs0 model_name
        false).attempts = max_retries
      ∧ (download_model H net models comfyui_path max_retries fs0 model_name
        false).sleeps = (List.range' 1 (max_retries - 1)).map (2 ^ ·)
      ∧ List.Chain' (· < ·) (download_model H net models comfyui_path
        max_retries fs0 model_name false).sleeps)
    ∧ (truthyOpt model.checksum = true →
      (∀ i (fsx : FS), (download_file (net i) fsx model.url
        (get_model_path comfyui_path model)).ok = true) →
      (∀ fsx : FS, verify_checksum H fsx (get_model_path comfyui_path model)
        model.checksum model.checksum_type = false) →
      (download_model H net models comfyui_path max_retries fs0 model_name
        false).result = Except.ok false
      ∧ (download_model H net models comfyui_path max_retries fs0 model_name
        false).attempts = max_retries
      ∧ (download_model H net models comfyui_path max_retries fs0 model_name
        false).sleeps = []
      ∧ (download_model H net models comfyui_path max_retries fs0 model_name
        false).fs (get_model_path comfyui_path model) = none) := by
  have hC : ((fs0 (get_model_path comfyui_path model)).isSome && !false
      && verify_checksum H fs0 (get_model_path comfyui_path model)
           model.checksum model.checksum_type) = true ↔ False := by
    simp [hnone]
  constructor
  · intro hfail
    have hloop := attemptLoop_all_fail H net model
      (get_model_path comfyui_path model) max_retries hfail max_retries 1
      fs0 (by omega)
    unfold download_model
    rw [hfind]
    simp only [hC, if_false]
    refine ⟨by rw [hloop.1], by rw [hloop.2.2], by rw [hloop.2.1], ?_⟩
    rw [hloop.2.1]
    exact chain_lt_pow_two_range 1 (max_retries - 1)
  · intro hchk hok hver
    have hloop := attemptLoop_verify_fail H net model
      (get_model_path comfyui_path model) max_retries hchk hok hver
      max_retries 1 fs0 (by omega) hnone
    unfold download_model
    rw [hfind]
    simp only [hC, if_false]
    exact ⟨by rw [hloop.1], by rw [hloop.2.2.1], by rw [hloop.2.1],
      hloop.2.2.2⟩

/-- Witness for C4: with the default budget of 3 and an always-failing
network, `download_model` makes 3 attempts, sleeps 2 then 4 seconds, and
returns `false`. -/
theorem C4_witness :
    (download_model hashConst (fun _ => netFail) [modelA] "root" 3 fsNone
      "A" false).result = Except.ok false
    ∧ (download_model hashConst (fun _ => netFail) [modelA] "root" 3 fsNone
      "A" false).attempts = 3
    ∧ (download_model hashConst (fun _ => netFail) [modelA] "root" 3 fsNone
      "A" false).sleeps = [2, 4] := by
  have h := (C4_retry_budget_and_backoff hashConst (fun _ => netFail)
    [modelA] "root" 3 fsNone "A" modelA (by decide) rfl).1
    (fun i fsx => by
      show (download_file netFail fsx modelA.url
        (get_model_path "root" modelA)).ok = false
      rw [download_file_eq_reqFail netFail fsx modelA.url
        (get_model_path "root" modelA) rfl])
  refine ⟨h.1, h.2.1, ?_⟩
  rw [h.2.2.1]
  rfl

/-! ### C9 — batch tolerance of `download_all` -/

/-- For a catalog name, `download_model` always returns a boolean. -/
theorem download_model_result_ok (H : HashFns) (net : Nat → Network)
    (models : List ModelInfo) (comfyui_path : String) (max_retries : Nat)
    (fs0 : FS) (model_name : String) (force : Bool) (model : ModelInfo)
    (hfind : findModel models model_name = some model) :
    ∃ b, (download_model H net models comfyui_path max_retries fs0 model_name
      force).result = Except.ok b := by
  unfold download_model
  rw [hfind]
  by_cases hc : ((fs0 (get_model_path comfyui_path model)).isSome && !force
      && verify_checksum H fs0 (get_model_path comfyui_path model)
           model.checksum model.checksum_type) = true
  · simp only [hc, if_true]
    exact ⟨true, rfl⟩
  · simp only [hc, if_false, Bool.false_eq_true]
    exact ⟨_, rfl⟩

/-- A catalog member's name is always found by `findModel`. -/
theorem catalog_names_found (models : List ModelInfo) (m : ModelInfo)
    (hm : m ∈ models) : findModel models m.name ≠ none := by
  rw [findModel]
  intro h
  rw [List.find?_eq_none] at h
  exact absurd (by simp) (h m hm)

/-- Every name in `to_download` comes from the catalog. -/
theorem names_to_download_found (H : HashFns) (fs0 : FS)
    (comfyui_path : String) (models : List ModelInfo) (skip_existing : Bool) :
    ∀ nm ∈ names_to_download H fs0 comfyui_path models skip_existing,
      findModel models nm ≠ none := by
  intro nm hnm
  rw [names_to_download] at hnm
  simp only [List.mem_map] at hnm
  obtain ⟨p, hp, hfst⟩ := hnm
  have hp2 := List.mem_of_mem_filter hp
  rw [check_installed] at hp2
  simp only [List.mem_map] at hp2
  obtain ⟨m, hm, hpm⟩ := hp2
  subst hfst
  rw [← hpm]
  exact catalog_names_found models m hm

/-- The sequential batch loop never throws for catalog names and tallies
every processed name exactly once. -/
theorem downloadAllLoop_total (H : HashFns) (net : String → Nat → Network)
    (models : List ModelInfo) (comfyui_path : String) (max_retries : Nat) :
    ∀ (names : List String) (fs : FS),
      (∀ n ∈ names, findModel models n ≠ none) →
      ∃ s f fs1 a,
        downloadAllLoop H net models comfyui_path max_retries names fs
          = Except.ok ((s, f), fs1, a)
        ∧ s + f = names.length := by
  intro names
  induction names with
  | nil => intro fs _; exact ⟨0, 0, fs, 0, rfl, rfl⟩
  | cons n rest ih =>
    intro fs hmem
    obtain ⟨model, hm⟩ : ∃ m, findModel models n = some m := by
      cases hfm : findModel models n with
      | none => exact absurd hfm (hmem n (by simp))
      | some m => exact ⟨m, rfl⟩
    obtain ⟨b, hb⟩ := download_model_result_ok H (net n) models comfyui_path
      max_retries fs n false model hm
    obtain ⟨s, f, fs1, a, hrec, hsum⟩ := ih
      (download_model H (net n) models comfyui_path max_retries fs n false).fs
      (fun x hx => hmem x (List.mem_cons_of_mem _ hx))
    simp only [downloadAllLoop]
    rw [hb, hrec]
    cases b with
    | true =>
      refine ⟨s + 1, f, fs1, _, rfl, ?_⟩
      simp only [List.length_cons]
      omega
    | false =>
      refine ⟨s, f + 1, fs1, _, rfl, ?_⟩
      simp only [List.length_cons]
      omega

/-- C9: `download_all` attempts every model of the required set and reports
the `(successes, failures)` tally — with exactly one failure out of `count`
names the tally is `(count-1, 1)` — and when the required set is empty it
short-circuits to the all-succeeded result with zero download calls. -/
theorem C9_batch_tolerance (H : HashFns) (net : String → Nat → Network)
    (models : List ModelInfo) (comfyui_path : String) (max_retries : Nat)
    (fs0 : FS) (skip_existing : Bool) :
    (names_to_download H fs0 comfyui_path models skip_existing = [] →
      download_all H net models comfyui_path max_retries fs0 skip_existing
        = Except.ok ((models.length, 0), fs0, 0))
    ∧ (names_to_download H fs0 comfyui_path models skip_existing ≠ [] →
      ∃ s f fs1 a,
        download_all H net models comfyui_path max_retries fs0 skip_existing
          = Except.ok ((s, f), fs1, a)
        ∧ s + f = (names_to_download H fs0 comfyui_path models
            skip_existing).length
        ∧ (f = 1 → s = (names_to_download H fs0 comfyui_path models
            skip_existing).length - 1)) := by
  constructor
  · intro h
    unfold download_all
    simp [h]
  · intro h
    obtain ⟨s, f, fs1, a, heq, hsum⟩ := downloadAllLoop_total H net models
      comfyui_path max_retries
      (names_to_download H fs0 comfyui_path models skip_existing) fs0
      (names_to_download_found H fs0 comfyui_path models skip_existing)
    unfold download_all
    simp only [h, if_false]
    exact ⟨s, f, fs1, a, heq, hsum, fun hf => by omega⟩

/-- Witness for C9: an empty catalog short-circuits to the all-succeeded
tally with no download calls. -/
theorem C9_witness :
    download_all hashConst (fun _ _ => netFail) [] "root" 3 fsNone true
      = Except.ok ((0, 0), fsNone, 0) := by
  exact (C9_batch_tolerance hashConst (fun _ _ => netFail) [] "root" 3 fsNone
    true).1 rfl

/-- Witness for the amended C8: a concrete unparsable manifest makes
construction fail. -/
theorem C8_witness :
    load_models_config (ManifestFile.present (Except.error ()))
      = LoadResult.raised :=
  C8_amended_manifest_loading.1 ()
